import Mathlib

/-!
Shallow embedding of the OAK automation-price pallet
(`pallets/automation-price/src/lib.rs`) for verifying the
specification's claims about it.

Conventions of the embedding:
* machine integers (`u8`, `u32`, `u64`, `u128`) are `Nat`; byte strings
  (`Vec<u8>`) are `List Nat`; weights carry only their `ref_time`
  component (the pallet compares and subtracts weights through
  `.ref_time()` only), and `saturating_sub` on weights is `Nat`
  truncated subtraction;
* each storage map (`StorageMap` / `StorageNMap`) is an association
  list keyed by its storage key; `StorageValue` items are plain fields;
* config constants (`T::DbWeight`, `T::WeightInfo`) are a `WeightConf`
  record threaded through the functions that read them;
* the `Currency::transfer` capability is a parameter
  `tf : Acct → Acct → Nat → Option DispatchError` (`none` = success),
  since the balance ledger is an external collaborator;
* fallible dispatchables return a `CallResult`; a Rust slice indexing
  that can go out of bounds is made total with an explicit `.panicked`
  outcome carrying the state reached at the point of the panic;
* `deposit_event` appends to an `events` list in the state.
-/

namespace OAK

/-- Account ids (`T::AccountId`), opaque. -/
abbrev Acct := Nat

/-- Byte strings: `Vec<u8>` values such as chain / exchange / asset names. -/
abbrev Bytes := List Nat

/-- `type TaskId = Vec<u8>`. -/
abbrev TaskId := List Nat

/-- Composite storage key (chain, exchange, asset1, asset2) used by
`AssetRegistry`, `PriceRegistry` and `SortedTasksIndex`. -/
abbrev AssetKey := Bytes × Bytes × Bytes × Bytes

/-- `DispatchError` reported by a failed currency transfer, opaque. -/
abbrev DispatchError := Nat

/-- Association-list lookup: the value stored under `key`, if any. -/
def alookup {α β : Type} [DecidableEq α] : List (α × β) → α → Option β
  | [], _ => none
  | (k, v) :: rest, key => if k = key then some v else alookup rest key

/-- Drop the entry stored under `key` (storage `remove`). -/
def aremove {α β : Type} [DecidableEq α] : List (α × β) → α → List (α × β)
  | [], _ => []
  | (k, v) :: rest, key =>
      if k = key then aremove rest key else (k, v) :: aremove rest key

/-- Store `v` under `key`, replacing any previous entry (storage `insert`). -/
def ainsert {α β : Type} [DecidableEq α] (l : List (α × β)) (key : α) (v : β) :
    List (α × β) :=
  (key, v) :: aremove l key

theorem alookup_aremove_self {α β : Type} [DecidableEq α]
    (l : List (α × β)) (k : α) : alookup (aremove l k) k = none := by
  induction l with
  | nil => rfl
  | cons kv rest ih =>
      obtain ⟨k₁, v₁⟩ := kv
      by_cases h : k₁ = k
      · simpa [aremove, h] using ih
      · simpa [aremove, alookup, h] using ih

theorem alookup_aremove_other {α β : Type} [DecidableEq α]
    (l : List (α × β)) (k k' : α) (h : k' ≠ k) :
    alookup (aremove l k) k' = alookup l k' := by
  induction l with
  | nil => rfl
  | cons kv rest ih =>
      obtain ⟨k₁, v₁⟩ := kv
      have hkk' : k ≠ k' := fun hc => h hc.symm
      by_cases hk : k₁ = k
      · simpa [aremove, alookup, hk, hkk'] using ih
      · by_cases hk' : k₁ = k'
        · simp [aremove, alookup, hk, hk', h]
        · simpa [aremove, alookup, hk, hk'] using ih

theorem alookup_ainsert_self {α β : Type} [DecidableEq α]
    (l : List (α × β)) (k : α) (v : β) : alookup (ainsert l k v) k = some v := by
  simp [ainsert, alookup]

theorem alookup_ainsert_other {α β : Type} [DecidableEq α]
    (l : List (α × β)) (k k' : α) (v : β) (h : k' ≠ k) :
    alookup (ainsert l k v) k' = alookup l k' := by
  have h' : k ≠ k' := fun hc => h hc.symm
  rw [ainsert]
  rw [alookup]
  simp only [h', if_false]
  exact alookup_aremove_other l k k' h

/-- `InstructionSequence` from `pallet_xcmp_handler` (external crate);
only the first variant is used by this pallet. -/
inductive InstructionSequence : Type
  | PayThroughSovereignAccount : InstructionSequence
  | PayThroughRemoteDerivativeAccount : InstructionSequence
deriving DecidableEq

/-- The `Action` tagged union (`ActionOf<T>`): either a native balance
transfer or an XCMP cross-chain call.  `MultiLocation` values and the
`AssetPayment` execution-fee payload are opaque (`Nat`): the pallet never
inspects them. -/
inductive Action : Type
  | NativeTransfer (sender recipient : Acct) (amount : Nat) : Action
  | XCMP (destination schedule_fee : Nat) (execution_fee : Nat)
      (encoded_call : Bytes) (encoded_call_weight overall_weight : Nat)
      (schedule_as : Option Acct)
      (instruction_sequence : InstructionSequence) : Action
deriving DecidableEq

/-- The `Task<T>` struct. -/
structure Task : Type where
  owner_id : Acct
  task_id : TaskId
  chain : Bytes
  exchange : Bytes
  asset_pair : Bytes × Bytes
  trigger_function : Bytes
  trigger_params : List Nat
  action : Action
deriving DecidableEq

/-- `RegistryInfo<T>`: metadata of a tracked asset pair. -/
structure RegistryInfo : Type where
  round : Nat
  decimal : Nat
  last_update : Nat
  oracle_providers : List Acct
deriving DecidableEq

/-- `PriceData`: current price record of a tracked asset pair. -/
structure PriceData : Type where
  round : Nat
  nonce : Nat
  amount : Nat
deriving DecidableEq

/-- The pallet's events (constructors mirror `Event<T>`). -/
inductive Event : Type
  | TaskScheduled (who : Acct) (task_id : TaskId) : Event
  | Notify (message : Bytes) : Event
  | TaskNotFound (task_id : TaskId) : Event
  | AssetCreated (chain exchange asset1 asset2 : Bytes) (decimal : Nat) : Event
  | AssetUpdated (asset : Bytes) : Event
  | AssetDeleted (asset : Bytes) : Event
  | AssetPeriodReset (asset : Bytes) : Event
  | SuccessfullyTransferredFunds (task_id : TaskId) : Event
  | TransferFailed (task_id : TaskId) (error : DispatchError) : Event
deriving DecidableEq

/-- The pallet's `Error<T>` enum. -/
inductive PalletError : Type
  | EmptyProvidedId
  | InvalidTime
  | DuplicateTask
  | AssetNotSupported
  | AssetNotInitialized
  | AssetAlreadySupported
  | AssetAlreadyInitialized
  | InvalidAssetSudo
  | OracleNotAuthorized
  | AssetNotInTriggerableRange
  | BlockTimeNotSet
  | InvalidAssetExpirationWindow
  | MaxTasksReached
  | TaskInsertionFailure
  | InsufficientBalance
  | LiquidityRestrictions
  | AssetLimitReached
  | BadVersion
deriving DecidableEq

/-- The pallet's persisted storage plus the emitted-event record. -/
structure PalletState : Type where
  assetRegistry : List (AssetKey × RegistryInfo)
  priceRegistry : List (AssetKey × PriceData)
  sortedTasksIndex : List (AssetKey × List (TaskId × Nat))
  scheduledTasks : List ((Bytes × Bytes) × List Nat)
  tasks : List (TaskId × Task)
  taskQueue : List (Bytes × Nat)
  events : List Event
  shutdown : Bool
deriving DecidableEq

/-- Config constants read through `T::DbWeight` and `T::WeightInfo`
(all `ref_time` values). -/
structure WeightConf : Type where
  dbRead : Nat
  dbWrite : Nat
  emit_event : Nat
  run_native_transfer_task : Nat
deriving DecidableEq

/-- `deposit_event`. -/
def deposit_event (e : Event) (st : PalletState) : PalletState :=
  { st with events := st.events ++ [e] }

/-- Outcome of a dispatchable or internal fallible call.  `err` carries
the state the caller keeps (after `#[transactional]` rollback where that
attribute applies); `panicked` is the explicit out-of-bounds branch of
the total embedding. -/
inductive CallResult : Type
  | ok (st : PalletState) : CallResult
  | err (e : PalletError) (st : PalletState) : CallResult
  | panicked (st : PalletState) : CallResult
deriving DecidableEq

/-- Decimal digits of `n`, most significant first, as `format!` renders
an unsigned integer (`0` renders as the single digit `0`). -/
def decimalDigits (n : Nat) : List Nat :=
  if n = 0 then [0] else (Nat.digits 10 n).reverse

/-- ASCII bytes of the decimal rendering of `n` (digit `d` is byte `48 + d`). -/
def decimalBytes (n : Nat) : Bytes :=
  (decimalDigits n).map (fun d => d + 48)

/-- `generate_task_id`: the bytes of
`format!("{:}-{:}-{:}", current_block_number, tx_id, evt_index)`.
The inputs are the already-defaulted numeric environment values: a block
number that does not fit `u64` and a missing extrinsic index both become
`0` in the source before formatting; byte `45` is ASCII `-`. -/
def generate_task_id (current_block_number tx_id evt_index : Nat) : TaskId :=
  decimalBytes current_block_number ++
    45 :: (decimalBytes tx_id ++ 45 :: decimalBytes evt_index)

/-- `trigger_tasks`: the whole body after the cheap-budget guard is
commented out in the source, so both paths return `weight_left`
(still equal to `max_weight`) and touch no storage. -/
def trigger_tasks (cfg : WeightConf) (max_weight : Nat) (st : PalletState) :
    Nat × PalletState :=
  let weight_left := max_weight
  let check_time_and_deletion_weight := 2 * cfg.dbRead
  if weight_left < check_time_and_deletion_weight then (weight_left, st)
  else (weight_left, st)

/-- Write a `PriceData` record into `PriceRegistry` (the
`PriceRegistry::<T>::insert` call of `update_asset_prices`). -/
def writePrice (st : PalletState) (key : AssetKey) (pd : PriceData) :
    PalletState :=
  { st with priceRegistry := ainsert st.priceRegistry key pd }

/-- The `for (index, price) in prices.clone().iter().enumerate()` loop of
`update_asset_prices`.  Each round indexes `chains`, `exchanges`,
`assets1`, `assets2` and `rounds` at `index` (a Rust out-of-bounds panic
is the `.panicked` branch), checks that the key is registered and the
signer is one of its oracle providers, and overwrites `PriceData` with
the hard-coded `nonce: 1`.  `submitted_at` is received but never read by
the source. -/
def updatePricesLoop (who : Acct) (chains exchanges assets1 assets2 : List Bytes)
    (rounds : List Nat) : Nat → List Nat → PalletState → CallResult
  | _, [], st => CallResult.ok st
  | index, price :: restPrices, st =>
    match chains.get? index, exchanges.get? index, assets1.get? index,
        assets2.get? index, rounds.get? index with
    | some chain, some exchange, some asset1, some asset2, some round =>
      let key : AssetKey := (chain, exchange, asset1, asset2)
      if alookup st.assetRegistry key = none then
        CallResult.err PalletError.AssetNotInitialized st
      else
        match alookup st.assetRegistry key with
        | some asset_registry =>
          if who ∈ asset_registry.oracle_providers then
            updatePricesLoop who chains exchanges assets1 assets2 rounds
              (index + 1) restPrices
              (writePrice st key { round := round, nonce := 1, amount := price })
          else CallResult.err PalletError.OracleNotAuthorized st
        | none =>
          updatePricesLoop who chains exchanges assets1 assets2 rounds
            (index + 1) restPrices st
    | _, _, _, _, _ => CallResult.panicked st

/-- The `update_asset_prices` dispatchable.  It is `#[transactional]`:
an `Err` from any batch entry rolls every prior write back, so the
caller keeps the entry state; a panic aborts the extrinsic, so no write
is committed either. -/
def update_asset_prices (who : Acct)
    (chains exchanges assets1 assets2 : List Bytes)
    (prices _submitted_at rounds : List Nat) (st : PalletState) : CallResult :=
  match updatePricesLoop who chains exchanges assets1 assets2 rounds 0 prices st with
  | CallResult.ok st' => CallResult.ok st'
  | CallResult.err e _ => CallResult.err e st
  | CallResult.panicked _ => CallResult.panicked st

/-- The rebuild-the-queue loop of `delete_asset_tasks`: push every entry
whose asset component differs from `asset` into the new queue, in order. -/
def filterTaskQueue (asset : Bytes) : List (Bytes × Nat) → List (Bytes × Nat)
  | [] => []
  | entry :: rest =>
      if entry.1 ≠ asset then entry :: filterTaskQueue asset rest
      else filterTaskQueue asset rest

/-- `delete_asset_tasks`: `clear_prefix` removes every `ScheduledTasks`
entry whose first key component is `asset` (the `u32::MAX` limit covers
the whole map), then the task queue is rewritten keeping only entries
of other assets. -/
def delete_asset_tasks (asset : Bytes) (st : PalletState) : PalletState :=
  let st1 := { st with
    scheduledTasks := st.scheduledTasks.filter (fun kv => decide (kv.1.1 ≠ asset)) }
  { st1 with taskQueue := filterTaskQueue asset st1.taskQueue }

/-- `run_native_transfer_task`: attempt the keep-alive transfer through
the currency capability, emit the success / failure event, and return
`T::WeightInfo::run_native_transfer_task()` either way. -/
def run_native_transfer_task (cfg : WeightConf)
    (tf : Acct → Acct → Nat → Option DispatchError)
    (sender recipient : Acct) (amount : Nat) (task_id : TaskId)
    (st : PalletState) : Nat × PalletState :=
  let st' :=
    match tf sender recipient amount with
    | none => deposit_event (Event.SuccessfullyTransferredFunds task_id) st
    | some e => deposit_event (Event.TransferFailed task_id e) st
  (cfg.run_native_transfer_task, st')

/-- `run_tasks`: run tasks from `task_ids` one at a time.  A found task
is dispatched by its action tag (XCMP charges the placeholder
`1_000_000`), removed from `Tasks`, and charged one extra storage write
plus one read; a missing task charges only `emit_event`.  After each
task the loop stops when the weight left cannot cover
`emit_event + one write + one read`; the unprocessed tail and the weight
left are returned. -/
def run_tasks (cfg : WeightConf)
    (tf : Acct → Acct → Nat → Option DispatchError) :
    List TaskId → Nat → PalletState → List TaskId × Nat × PalletState
  | [], weight_left, st => ([], weight_left, st)
  | task_id :: rest, weight_left, st =>
    let step : Nat × PalletState :=
      match alookup st.tasks task_id with
      | none => (cfg.emit_event, st)
      | some task =>
        let acted : Nat × PalletState :=
          match task.action with
          | Action.XCMP _ _ _ _ _ _ _ _ => (1000000, st)
          | Action.NativeTransfer sender recipient amount =>
              run_native_transfer_task cfg tf sender recipient amount task_id st
        (acted.1 + cfg.dbWrite + cfg.dbRead,
         { acted.2 with tasks := aremove acted.2.tasks task_id })
    let weight_left' := weight_left - step.1
    let run_another_task_weight := cfg.emit_event + cfg.dbWrite + cfg.dbRead
    if weight_left' < run_another_task_weight then (rest, weight_left', step.2)
    else run_tasks cfg tf rest weight_left' step.2

/-- `schedule_task`: the whole body is commented out in the source; it
returns `Ok(task_id)` unconditionally and touches nothing. -/
def schedule_task (task : Task) : Except PalletError TaskId :=
  Except.ok task.task_id

/-- `validate_and_schedule_task`: reject an empty `task_id`; insert the
task into `Tasks`; then read `SortedTasksIndex` for the task's asset
key — when a per-key map exists the source inserts
`(task_id, trigger_params[0])` only into its local copy and never writes
it back, when none exists a fresh one-entry map is inserted; finally
`schedule_task` (a no-op) and the `TaskScheduled` event.  Indexing
`trigger_params[0]` of an empty list is the `.panicked` branch, reached
after the `Tasks` insert. -/
def validate_and_schedule_task (task : Task) (st : PalletState) : CallResult :=
  if task.task_id = [] then CallResult.err PalletError.EmptyProvidedId st
  else
    let key : AssetKey :=
      (task.chain, task.exchange, task.asset_pair.1, task.asset_pair.2)
    let st1 := { st with tasks := ainsert st.tasks task.task_id task }
    match task.trigger_params.get? 0 with
    | none => CallResult.panicked st1
    | some threshold =>
      let st2 :=
        match alookup st1.sortedTasksIndex key with
        | some task_index =>
            -- the source mutates the local `task_index` copy and drops it
            let _updated := ainsert task_index task.task_id threshold
            st1
        | none =>
            let task_index := ainsert ([] : List (TaskId × Nat)) task.task_id threshold
            { st1 with sortedTasksIndex := ainsert st1.sortedTasksIndex key task_index }
      match schedule_task task with
      | Except.error e => CallResult.err e st2
      | Except.ok _ =>
          CallResult.ok
            (deposit_event (Event.TaskScheduled task.owner_id task.task_id) st2)

/-- `schedule_xcmp_task`: build the XCMP task for the signer and hand it
to `validate_and_schedule_task`.  The `MultiLocation::try_from`
conversions of the versioned destination and fee locations are
represented by `Option Nat` arguments (`none` = conversion failure,
rejected with `BadVersion`); `task_id` generation reads the numeric
block context.  `expired_at` is received but never read by the source.
The call is `#[transactional]`, so an `Err` leaves the caller with the
entry state. -/
def schedule_xcmp_task (who : Acct) (blockContext : Nat × Nat × Nat)
    (chain exchange asset1 asset2 : Bytes) (_expired_at : Nat)
    (trigger_function : Bytes) (trigger_param : List Nat)
    (destination schedule_fee : Option Nat) (execution_fee : Nat)
    (encoded_call : Bytes) (encoded_call_weight overall_weight : Nat)
    (st : PalletState) : CallResult :=
  let task_id :=
    generate_task_id blockContext.1 blockContext.2.1 blockContext.2.2
  match destination with
  | none => CallResult.err PalletError.BadVersion st
  | some dest =>
    match schedule_fee with
    | none => CallResult.err PalletError.BadVersion st
    | some sfee =>
      let action := Action.XCMP dest sfee execution_fee encoded_call
        encoded_call_weight overall_weight none
        InstructionSequence.PayThroughSovereignAccount
      let task : Task :=
        { owner_id := who
          task_id := task_id
          chain := chain
          exchange := exchange
          asset_pair := (asset1, asset2)
          trigger_function := trigger_function
          trigger_params := trigger_param
          action := action }
      match validate_and_schedule_task task st with
      | CallResult.ok st' => CallResult.ok st'
      | CallResult.err e _ => CallResult.err e st
      | CallResult.panicked st' => CallResult.panicked st'

theorem ofDigits_decimalBytes (n : Nat) :
    Nat.ofDigits 10 (((decimalBytes n).map (fun b => b - 48)).reverse) = n := by
  by_cases h : n = 0
  · subst h
    simp [decimalBytes, decimalDigits, Nat.ofDigits]
  · have hcomp : ((fun b => b - 48) ∘ fun d => d + 48) = id := by
      funext d; simp
    have hmap : (decimalBytes n).map (fun b => b - 48) = (Nat.digits 10 n).reverse := by
      simp only [decimalBytes, decimalDigits, h, if_false, List.map_map, hcomp,
        List.map_id]
    rw [hmap, List.reverse_reverse, Nat.ofDigits_digits]

theorem decimalBytes_inj {m n : Nat} (h : decimalBytes m = decimalBytes n) :
    m = n := by
  have := congrArg (fun l : Bytes => Nat.ofDigits 10 ((l.map (fun b => b - 48)).reverse)) h
  simpa [ofDigits_decimalBytes] using this

theorem mem_decimalBytes_ne_sep (n : Nat) :
    ∀ x ∈ decimalBytes n, x ≠ 45 := by
  intro x hx
  simp only [decimalBytes, List.mem_map] at hx
  obtain ⟨d, _, rfl⟩ := hx
  omega

theorem takeWhile_sep (l₁ l₂ : List Nat) (h : ∀ x ∈ l₁, x ≠ 45) :
    (l₁ ++ 45 :: l₂).takeWhile (fun x => x != 45) = l₁ := by
  induction l₁ with
  | nil => simp
  | cons a rest ih =>
      have ha : (a != 45) = true := by
        simpa using h a (List.mem_cons_self a rest)
      simp only [List.cons_append, List.takeWhile_cons, ha]
      simp [ih (fun x hx => h x (List.mem_cons_of_mem a hx))]

theorem dropWhile_sep (l₁ l₂ : List Nat) (h : ∀ x ∈ l₁, x ≠ 45) :
    (l₁ ++ 45 :: l₂).dropWhile (fun x => x != 45) = 45 :: l₂ := by
  induction l₁ with
  | nil => simp
  | cons a rest ih =>
      have ha : (a != 45) = true := by
        simpa using h a (List.mem_cons_self a rest)
      simp only [List.cons_append, List.dropWhile_cons, ha]
      exact ih (fun x hx => h x (List.mem_cons_of_mem a hx))

theorem sepjoin_inj {a₁ b₁ a₂ b₂ : List Nat} (h₁ : ∀ x ∈ a₁, x ≠ 45)
    (h₂ : ∀ x ∈ a₂, x ≠ 45) (heq : a₁ ++ 45 :: b₁ = a₂ ++ 45 :: b₂) :
    a₁ = a₂ ∧ b₁ = b₂ := by
  have ht := takeWhile_sep a₁ b₁ h₁
  have hd := dropWhile_sep a₁ b₁ h₁
  rw [heq] at ht hd
  rw [takeWhile_sep a₂ b₂ h₂] at ht
  rw [dropWhile_sep a₂ b₂ h₂] at hd
  refine ⟨ht.symm, ?_⟩
  injection hd with h1 h2
  exact h2.symm

/-- C6: `generate_task_id` is a pure function of the numeric block
context (block number, extrinsic index, event count) — it is a plain
Lean function of exactly those three arguments, reading and writing no
state — and it is injective on those inputs: calls whose block number,
transaction index or event count differ never return the same task id. -/
theorem generate_task_id_injective (b t e b' t' e' : Nat)
    (h : generate_task_id b t e = generate_task_id b' t' e') :
    b = b' ∧ t = t' ∧ e = e' := by
  unfold generate_task_id at h
  obtain ⟨h1, h2⟩ :=
    sepjoin_inj (mem_decimalBytes_ne_sep b) (mem_decimalBytes_ne_sep b') h
  obtain ⟨h3, h4⟩ :=
    sepjoin_inj (mem_decimalBytes_ne_sep t) (mem_decimalBytes_ne_sep t') h2
  exact ⟨decimalBytes_inj h1, decimalBytes_inj h3, decimalBytes_inj h4⟩

theorem generate_task_id_injective_witness : 3 = 3 ∧ 5 = 5 ∧ 7 = 7 :=
  generate_task_id_injective 3 5 7 3 5 7 rfl

/-- C3: `trigger_tasks(budget)` returns a consumed weight that never
exceeds `budget` (the hook reports its return value as the weight it
consumed); for budget `0` it returns `0`; and it leaves the whole pallet
state unchanged for every budget. -/
theorem trigger_tasks_weight_bound (cfg : WeightConf) (st : PalletState)
    (budget : Nat) :
    (trigger_tasks cfg budget st).1 ≤ budget ∧
      (trigger_tasks cfg budget st).2 = st ∧
      trigger_tasks cfg 0 st = (0, st) := by
  refine ⟨?_, ?_, ?_⟩ <;> simp [trigger_tasks]

theorem alookup_filter_fst_self {β : Type} (l : List ((Bytes × Bytes) × β))
    (asset : Bytes) (slot : Bytes) :
    alookup (l.filter (fun kv => decide (kv.1.1 ≠ asset))) (asset, slot) = none := by
  induction l with
  | nil => rfl
  | cons kv rest ih =>
      by_cases h : kv.1.1 = asset
      · simpa [List.filter, h] using ih
      · have hne : kv.1 ≠ (asset, slot) := by
          intro hc; exact h (by rw [hc])
        simpa [List.filter, h, alookup, hne] using ih

theorem alookup_filter_fst_other {β : Type} (l : List ((Bytes × Bytes) × β))
    (asset : Bytes) (a : Bytes) (slot : Bytes) (h : a ≠ asset) :
    alookup (l.filter (fun kv => decide (kv.1.1 ≠ asset))) (a, slot) =
      alookup l (a, slot) := by
  induction l with
  | nil => rfl
  | cons kv rest ih =>
      by_cases hk : kv.1.1 = asset
      · have hne : kv.1 ≠ (a, slot) := by
          intro hc
          rw [hc] at hk
          exact h hk
        simpa [List.filter, hk, alookup, hne] using ih
      · by_cases hk' : kv.1 = (a, slot)
        · simp [List.filter, hk, alookup, hk', h]
        · simpa [List.filter, hk, alookup, hk'] using ih

theorem filterTaskQueue_eq_filter (asset : Bytes) (q : List (Bytes × Nat)) :
    filterTaskQueue asset q = q.filter (fun entry => decide (entry.1 ≠ asset)) := by
  induction q with
  | nil => rfl
  | cons entry rest ih =>
      by_cases h : entry.1 = asset
      · simp [filterTaskQueue, List.filter, h, ih]
      · simp [filterTaskQueue, List.filter, h, ih]

/-- C8: `delete_asset_tasks(asset)` removes every `ScheduledTasks` index
entry under `asset`'s key prefix and every task-queue entry whose asset
component is `asset`; index entries of other assets keep their stored
value, and the new queue is exactly the original queue filtered to the
other assets, hence in its original relative order. -/
theorem delete_asset_tasks_spec (asset : Bytes) (st : PalletState) :
    (∀ slot, alookup (delete_asset_tasks asset st).scheduledTasks (asset, slot)
        = none) ∧
      (∀ a slot, a ≠ asset →
        alookup (delete_asset_tasks asset st).scheduledTasks (a, slot) =
          alookup st.scheduledTasks (a, slot)) ∧
      (delete_asset_tasks asset st).taskQueue =
        st.taskQueue.filter (fun entry => decide (entry.1 ≠ asset)) ∧
      (∀ entry ∈ (delete_asset_tasks asset st).taskQueue, entry.1 ≠ asset) := by
  refine ⟨?_, ?_, ?_, ?_⟩
  · intro slot
    exact alookup_filter_fst_self st.scheduledTasks asset slot
  · intro a slot h
    exact alookup_filter_fst_other st.scheduledTasks asset a slot h
  · simp [delete_asset_tasks, filterTaskQueue_eq_filter]
  · intro entry hmem
    simp only [delete_asset_tasks, filterTaskQueue_eq_filter] at hmem
    simpa using (List.of_mem_filter hmem)

/-- A sample state with index and queue entries for two assets. -/
def sampleDeleteState : PalletState :=
  { assetRegistry := []
    priceRegistry := []
    sortedTasksIndex := []
    scheduledTasks := [(([1], [2]), [5]), (([3], [2]), [6])]
    tasks := []
    taskQueue := [([1], 9), ([3], 8), ([1], 7)]
    events := []
    shutdown := false }

theorem delete_asset_tasks_spec_witness :
    alookup (delete_asset_tasks [1] sampleDeleteState).scheduledTasks ([1], [2])
        = none ∧
      alookup (delete_asset_tasks [1] sampleDeleteState).scheduledTasks ([3], [2])
        = alookup sampleDeleteState.scheduledTasks ([3], [2]) ∧
      (delete_asset_tasks [1] sampleDeleteState).taskQueue =
        sampleDeleteState.taskQueue.filter (fun entry => decide (entry.1 ≠ [1])) :=
  ⟨(delete_asset_tasks_spec [1] sampleDeleteState).1 [2],
    (delete_asset_tasks_spec [1] sampleDeleteState).2.1 [3] [2] (by decide),
    (delete_asset_tasks_spec [1] sampleDeleteState).2.2.1⟩

theorem run_tasks_preserves_no_task (cfg : WeightConf)
    (tf : Acct → Acct → Nat → Option DispatchError) :
    ∀ (ids : List TaskId) (B : Nat) (st : PalletState) (id : TaskId),
      alookup st.tasks id = none →
      alookup (run_tasks cfg tf ids B st).2.2.tasks id = none := by
  intro ids
  induction ids with
  | nil =>
      intro B st id h
      simpa [run_tasks] using h
  | cons tid rest ih =>
      intro B st id h
      have hrem : alookup (aremove st.tasks tid) id = none := by
        by_cases hid : id = tid
        · subst hid; exact alookup_aremove_self st.tasks id
        · rw [alookup_aremove_other st.tasks tid id hid]; exact h
      simp only [run_tasks]
      cases hfound : alookup st.tasks tid with
      | none =>
          by_cases hw : B - cfg.emit_event <
              cfg.emit_event + cfg.dbWrite + cfg.dbRead
          · simpa [hfound, hw] using h
          · simpa [hfound, hw] using ih _ _ id h
      | some task =>
          cases haction : task.action with
          | XCMP d sf ef ec ecw ow sa iseq =>
              by_cases hw : B - (1000000 + cfg.dbWrite + cfg.dbRead) <
                  cfg.emit_event + cfg.dbWrite + cfg.dbRead
              · simpa [hfound, haction, hw] using hrem
              · simpa [hfound, haction, hw] using ih _ _ id hrem
          | NativeTransfer s r a =>
              cases htf : tf s r a with
              | none =>
                  by_cases hw : B - (cfg.run_native_transfer_task +
                      cfg.dbWrite + cfg.dbRead) <
                      cfg.emit_event + cfg.dbWrite + cfg.dbRead
                  · simpa [hfound, haction, run_native_transfer_task, htf,
                      deposit_event, hw] using hrem
                  · simpa [hfound, haction, run_native_transfer_task, htf,
                      deposit_event, hw] using ih _ _ id hrem
              | some derr =>
                  by_cases hw : B - (cfg.run_native_transfer_task +
                      cfg.dbWrite + cfg.dbRead) <
                      cfg.emit_event + cfg.dbWrite + cfg.dbRead
                  · simpa [hfound, haction, run_native_transfer_task, htf,
                      deposit_event, hw] using hrem
                  · simpa [hfound, haction, run_native_transfer_task, htf,
                      deposit_event, hw] using ih _ _ id hrem

theorem run_tasks_preserves_event (cfg : WeightConf)
    (tf : Acct → Acct → Nat → Option DispatchError) :
    ∀ (ids : List TaskId) (B : Nat) (st : PalletState) (ev : Event),
      ev ∈ st.events → ev ∈ (run_tasks cfg tf ids B st).2.2.events := by
  intro ids
  induction ids with
  | nil =>
      intro B st ev h
      simpa [run_tasks] using h
  | cons tid rest ih =>
      intro B st ev h
      simp only [run_tasks]
      cases hfound : alookup st.tasks tid with
      | none =>
          by_cases hw : B - cfg.emit_event <
              cfg.emit_event + cfg.dbWrite + cfg.dbRead
          · simpa [hfound, hw] using h
          · simpa [hfound, hw] using ih _ _ ev h
      | some task =>
          cases haction : task.action with
          | XCMP d sf ef ec ecw ow sa iseq =>
              by_cases hw : B - (1000000 + cfg.dbWrite + cfg.dbRead) <
                  cfg.emit_event + cfg.dbWrite + cfg.dbRead
              · simpa [hfound, haction, hw] using h
              · have h' : ev ∈
                    ({ st with tasks := aremove st.tasks tid } : PalletState).events := h
                simpa [hfound, haction, hw] using
                  ih (B - (1000000 + cfg.dbWrite + cfg.dbRead))
                    { st with tasks := aremove st.tasks tid } ev h'
          | NativeTransfer s r a =>
              cases htf : tf s r a with
              | none =>
                  by_cases hw : B - (cfg.run_native_transfer_task +
                      cfg.dbWrite + cfg.dbRead) <
                      cfg.emit_event + cfg.dbWrite + cfg.dbRead
                  · simp [hfound, haction, run_native_transfer_task, htf, hw,
                      deposit_event]
                    exact Or.inl h
                  · have h' : ev ∈
                        ({ st with
                            tasks := aremove st.tasks tid,
                            events := st.events ++
                              [Event.SuccessfullyTransferredFunds tid] } :
                          PalletState).events := by
                      simp only [PalletState.mk.injEq]
                      exact List.mem_append_left _ h
                    simpa [hfound, haction, run_native_transfer_task, htf, hw,
                      deposit_event] using
                      ih (B - (cfg.run_native_transfer_task + cfg.dbWrite + cfg.dbRead))
                        { st with
                          tasks := aremove st.tasks tid,
                          events := st.events ++
                            [Event.SuccessfullyTransferredFunds tid] } ev h'
              | some derr =>
                  by_cases hw : B - (cfg.run_native_transfer_task +
                      cfg.dbWrite + cfg.dbRead) <
                      cfg.emit_event + cfg.dbWrite + cfg.dbRead
                  · simp [hfound, haction, run_native_transfer_task, htf, hw,
                      deposit_event]
                    exact Or.inl h
                  · have h' : ev ∈
                        ({ st with
                            tasks := aremove st.tasks tid,
                            events := st.events ++
                              [Event.TransferFailed tid derr] } :
                          PalletState).events := by
                      simp only [PalletState.mk.injEq]
                      exact List.mem_append_left _ h
                    simpa [hfound, haction, run_native_transfer_task, htf, hw,
                      deposit_event] using
                      ih (B - (cfg.run_native_transfer_task + cfg.dbWrite + cfg.dbRead))
                        { st with
                          tasks := aremove st.tasks tid,
                          events := st.events ++
                            [Event.TransferFailed tid derr] } ev h'

/-- C7: when `run_tasks` dispatches a task whose action is a
`NativeTransfer` (here: the head of the queue, which is always
dispatched), a success of the transfer capability puts the
transfer-succeeded event in the emitted events, a failure puts the
transfer-failed event carrying the failure cause there, and in both
cases the task is removed from the `Tasks` store; `run_tasks` returns
normally either way, never propagating the failure. -/
theorem run_tasks_native_transfer_consumed (cfg : WeightConf)
    (tf : Acct → Acct → Nat → Option DispatchError)
    (id : TaskId) (rest : List TaskId) (B : Nat) (st : PalletState)
    (t : Task) (s r a : Nat)
    (hfound : alookup st.tasks id = some t)
    (haction : t.action = Action.NativeTransfer s r a) :
    alookup (run_tasks cfg tf (id :: rest) B st).2.2.tasks id = none ∧
      (tf s r a = none →
        Event.SuccessfullyTransferredFunds id ∈
          (run_tasks cfg tf (id :: rest) B st).2.2.events) ∧
      (∀ derr, tf s r a = some derr →
        Event.TransferFailed id derr ∈
          (run_tasks cfg tf (id :: rest) B st).2.2.events) := by
  have hrem : alookup (aremove st.tasks id) id = none :=
    alookup_aremove_self st.tasks id
  cases htf : tf s r a with
  | none =>
      by_cases hw : B - (cfg.run_native_transfer_task + cfg.dbWrite + cfg.dbRead) <
          cfg.emit_event + cfg.dbWrite + cfg.dbRead
      · refine ⟨?_, fun _ => ?_, fun derr hderr => absurd hderr (by simp)⟩
        · simpa [run_tasks, hfound, haction, run_native_transfer_task, htf,
            deposit_event, hw] using hrem
        · simp [run_tasks, hfound, haction, run_native_transfer_task, htf,
            deposit_event, hw]
      · have hno : alookup
            ({ st with
                tasks := aremove st.tasks id,
                events := st.events ++
                  [Event.SuccessfullyTransferredFunds id] } :
              PalletState).tasks id = none := hrem
        have hev : Event.SuccessfullyTransferredFunds id ∈
            ({ st with
                tasks := aremove st.tasks id,
                events := st.events ++
                  [Event.SuccessfullyTransferredFunds id] } :
              PalletState).events := by
          simp
        refine ⟨?_, fun _ => ?_, fun derr hderr => absurd hderr (by simp)⟩
        · simpa [run_tasks, hfound, haction, run_native_transfer_task, htf,
            deposit_event, hw] using
            run_tasks_preserves_no_task cfg tf rest
              (B - (cfg.run_native_transfer_task + cfg.dbWrite + cfg.dbRead))
              { st with
                tasks := aremove st.tasks id,
                events := st.events ++
                  [Event.SuccessfullyTransferredFunds id] } id hno
        · simpa [run_tasks, hfound, haction, run_native_transfer_task, htf,
            deposit_event, hw] using
            run_tasks_preserves_event cfg tf rest
              (B - (cfg.run_native_transfer_task + cfg.dbWrite + cfg.dbRead))
              { st with
                tasks := aremove st.tasks id,
                events := st.events ++
                  [Event.SuccessfullyTransferredFunds id] } _ hev
  | some e0 =>
      by_cases hw : B - (cfg.run_native_transfer_task + cfg.dbWrite + cfg.dbRead) <
          cfg.emit_event + cfg.dbWrite + cfg.dbRead
      · refine ⟨?_, fun hnone => absurd hnone (by simp), fun derr hderr => ?_⟩
        · simpa [run_tasks, hfound, haction, run_native_transfer_task, htf,
            deposit_event, hw] using hrem
        · obtain rfl : e0 = derr := by simpa using hderr
          simp [run_tasks, hfound, haction, run_native_transfer_task, htf,
            deposit_event, hw]
      · have hno : alookup
            ({ st with
                tasks := aremove st.tasks id,
                events := st.events ++ [Event.TransferFailed id e0] } :
              PalletState).tasks id = none := hrem
        have hev : Event.TransferFailed id e0 ∈
            ({ st with
                tasks := aremove st.tasks id,
                events := st.events ++ [Event.TransferFailed id e0] } :
              PalletState).events := by
          simp
        refine ⟨?_, fun hnone => absurd hnone (by simp), fun derr hderr => ?_⟩
        · simpa [run_tasks, hfound, haction, run_native_transfer_task, htf,
            deposit_event, hw] using
            run_tasks_preserves_no_task cfg tf rest
              (B - (cfg.run_native_transfer_task + cfg.dbWrite + cfg.dbRead))
              { st with
                tasks := aremove st.tasks id,
                events := st.events ++ [Event.TransferFailed id e0] } id hno
        · obtain rfl : e0 = derr := by simpa using hderr
          simpa [run_tasks, hfound, haction, run_native_transfer_task, htf,
            deposit_event, hw] using
            run_tasks_preserves_event cfg tf rest
              (B - (cfg.run_native_transfer_task + cfg.dbWrite + cfg.dbRead))
              { st with
                tasks := aremove st.tasks id,
                events := st.events ++ [Event.TransferFailed id e0] } _ hev

/-- A task whose action transfers 10 from account 2 to account 3. -/
def sampleTransferTask : Task :=
  { owner_id := 2
    task_id := [49]
    chain := [1]
    exchange := [2]
    asset_pair := ([3], [4])
    trigger_function := [1]
    trigger_params := [100]
    action := Action.NativeTransfer 2 3 10 }

/-- A state holding only `sampleTransferTask`. -/
def sampleTransferState : PalletState :=
  { assetRegistry := []
    priceRegistry := []
    sortedTasksIndex := []
    scheduledTasks := []
    tasks := [([49], sampleTransferTask)]
    taskQueue := []
    events := []
    shutdown := false }

/-- Sample config: every weight constant is 1 except the transfer's 5. -/
def sampleConf : WeightConf :=
  { dbRead := 1, dbWrite := 1, emit_event := 1, run_native_transfer_task := 5 }

theorem run_tasks_native_transfer_consumed_witness :
    alookup (run_tasks sampleConf (fun _ _ _ => none) [[49]] 100
        sampleTransferState).2.2.tasks [49] = none ∧
      ((fun (_ _ _ : Nat) => (none : Option DispatchError)) 2 3 10 = none →
        Event.SuccessfullyTransferredFunds [49] ∈
          (run_tasks sampleConf (fun _ _ _ => none) [[49]] 100
            sampleTransferState).2.2.events) ∧
      (∀ derr, (fun (_ _ _ : Nat) => (none : Option DispatchError)) 2 3 10
          = some derr →
        Event.TransferFailed [49] derr ∈
          (run_tasks sampleConf (fun _ _ _ => none) [[49]] 100
            sampleTransferState).2.2.events) :=
  run_tasks_native_transfer_consumed sampleConf (fun _ _ _ => none)
    [49] [] 100 sampleTransferState sampleTransferTask 2 3 10 (by decide) rfl

/-- The state with empty storage. -/
def emptyState : PalletState :=
  { assetRegistry := []
    priceRegistry := []
    sortedTasksIndex := []
    scheduledTasks := []
    tasks := []
    taskQueue := []
    events := []
    shutdown := false }

/-- C10: `generate_task_id` never returns an empty id (so every task
built by the public `schedule_xcmp_task` has a non-empty `task_id`,
whatever `trigger_param` the caller passes), and for every task with a
non-empty `task_id` and an empty `trigger_params` list,
`validate_and_schedule_task` reaches the out-of-bounds
`trigger_params[0]` branch of the total embedding after having inserted
the task into `Tasks`: the panic state still holds the insert. -/
theorem validate_and_schedule_task_empty_params_panics :
    (∀ b t e, generate_task_id b t e ≠ []) ∧
      (∀ (task : Task) (st : PalletState), task.task_id ≠ [] →
        task.trigger_params = [] →
        ∃ st', validate_and_schedule_task task st = CallResult.panicked st' ∧
          alookup st'.tasks task.task_id = some task) := by
  constructor
  · intro b t e h
    have hlen := congrArg List.length h
    simp [generate_task_id] at hlen
  · intro task st hid hparams
    refine ⟨{ st with tasks := ainsert st.tasks task.task_id task }, ?_, ?_⟩
    · simp [validate_and_schedule_task, hid, hparams]
    · exact alookup_ainsert_self st.tasks task.task_id task

/-- A task with an empty `trigger_params`, as `schedule_xcmp_task`
builds from an empty `trigger_param` argument. -/
def emptyParamsTask : Task :=
  { owner_id := 2
    task_id := [48]
    chain := [1]
    exchange := [2]
    asset_pair := ([3], [4])
    trigger_function := [1]
    trigger_params := []
    action := Action.XCMP 1 1 1 [] 0 0 none
      InstructionSequence.PayThroughSovereignAccount }

theorem validate_and_schedule_task_empty_params_panics_witness :
    generate_task_id 1 2 3 ≠ [] ∧
      ∃ st', validate_and_schedule_task emptyParamsTask emptyState =
          CallResult.panicked st' ∧
        alookup st'.tasks emptyParamsTask.task_id = some emptyParamsTask :=
  ⟨validate_and_schedule_task_empty_params_panics.1 1 2 3,
    validate_and_schedule_task_empty_params_panics.2 emptyParamsTask emptyState
      (by decide) rfl⟩

/-- The concrete task used for the C1 evidence. -/
def sampleC1Task : Task :=
  { owner_id := 2
    task_id := [49]
    chain := [1]
    exchange := [2]
    asset_pair := ([3], [4])
    trigger_function := [1]
    trigger_params := [100]
    action := Action.NativeTransfer 2 3 10 }

/-- A state that already holds a `SortedTasksIndex` map for the sample
task's asset key (holding some other task). -/
def sampleC1State : PalletState :=
  { emptyState with
    sortedTasksIndex := [(([1], [2], [3], [4]), [([50], 7)])] }

/-- The state `validate_and_schedule_task` actually produces from
`sampleC1State`. -/
def sampleC1After : PalletState :=
  { sampleC1State with
    tasks := [([49], sampleC1Task)]
    events := [Event.TaskScheduled 2 [49]] }

/-- C1 (evidence of the code bug): a successful
`validate_and_schedule_task` on a task with a non-empty id inserts into
`Tasks` and emits the event, but appends nothing to the `TaskQueue`
(`schedule_task`, whose doc comment promises the queue insertion with
rollback, has its whole body commented out) and leaves a pre-existing
`SortedTasksIndex` map unchanged (the updated copy is dropped), so the
claimed all-three-mutations outcome never happens. -/
theorem validate_and_schedule_task_no_queue_append :
    validate_and_schedule_task sampleC1Task sampleC1State =
        CallResult.ok sampleC1After ∧
      sampleC1After.taskQueue = sampleC1State.taskQueue ∧
      sampleC1After.taskQueue = [] ∧
      alookup sampleC1After.tasks [49] = some sampleC1Task ∧
      sampleC1After.sortedTasksIndex = sampleC1State.sortedTasksIndex :=
  ⟨by decide, by decide, by decide, by decide, by decide⟩

/-- C5 (evidence of the code bug): a batch whose `prices` vector has one
entry while every other component vector is empty reaches the
out-of-bounds indexing of `chains[0]` — the `panicked` branch of the
total embedding — instead of being rejected with a validation error
before any state mutation ("TODO: ensure length are all same" in the
source). -/
theorem update_asset_prices_length_mismatch_panics :
    update_asset_prices 1 [] [] [] [] [5] [] [] emptyState =
      CallResult.panicked emptyState := by
  decide

/-- Batch entry `i` can be indexed, names a registered key, and its
signer is one of the key's oracle providers. -/
def entryOk (who : Acct) (chains exchanges assets1 assets2 : List Bytes)
    (rounds : List Nat) (reg : List (AssetKey × RegistryInfo)) (i : Nat) : Prop :=
  ∃ chain exchange asset1 asset2 round info,
    chains.get? i = some chain ∧ exchanges.get? i = some exchange ∧
      assets1.get? i = some asset1 ∧ assets2.get? i = some asset2 ∧
      rounds.get? i = some round ∧
      alookup reg (chain, exchange, asset1, asset2) = some info ∧
      who ∈ info.oracle_providers

theorem drop_eq_cons_of_get (l : List Nat) (i : Nat) (a : Nat)
    (h : l.get? i = some a) : l.drop i = a :: l.drop (i + 1) := by
  induction l generalizing i with
  | nil => simp at h
  | cons x xs ih =>
      cases i with
      | zero =>
          simp only [List.get?] at h
          injection h with h
          simp [h]
      | succ n =>
          simp only [List.get?] at h
          simpa using ih n h

theorem updatePricesLoop_step (who : Acct)
    (chains exchanges assets1 assets2 : List Bytes) (rounds prices : List Nat)
    (i : Nat) (st : PalletState) (chain exchange asset1 asset2 : Bytes)
    (round p : Nat) (info : RegistryInfo)
    (hc : chains.get? i = some chain) (he : exchanges.get? i = some exchange)
    (ha1 : assets1.get? i = some asset1) (ha2 : assets2.get? i = some asset2)
    (hr : rounds.get? i = some round) (hp : prices.get? i = some p)
    (hreg : alookup st.assetRegistry (chain, exchange, asset1, asset2) = some info)
    (hwho : who ∈ info.oracle_providers) :
    updatePricesLoop who chains exchanges assets1 assets2 rounds i
        (prices.drop i) st =
      updatePricesLoop who chains exchanges assets1 assets2 rounds (i + 1)
        (prices.drop (i + 1))
        (writePrice st (chain, exchange, asset1, asset2)
          { round := round, nonce := 1, amount := p }) := by
  rw [drop_eq_cons_of_get prices i p hp]
  rw [List.get?_eq_getElem?] at hc he ha1 ha2 hr
  simp only [updatePricesLoop, List.get?_eq_getElem?, hc, he, ha1, ha2, hr]
  simp [hreg, hwho]

theorem updatePricesLoop_reach (who : Acct)
    (chains exchanges assets1 assets2 : List Bytes) (rounds prices : List Nat)
    (st : PalletState) :
    ∀ i, i ≤ prices.length →
      (∀ j, j < i → entryOk who chains exchanges assets1 assets2 rounds
        st.assetRegistry j) →
      ∃ stI,
        updatePricesLoop who chains exchanges assets1 assets2 rounds 0 prices st =
          updatePricesLoop who chains exchanges assets1 assets2 rounds i
            (prices.drop i) stI ∧
        stI.assetRegistry = st.assetRegistry := by
  intro i
  induction i with
  | zero => intro _ _; exact ⟨st, by simp, rfl⟩
  | succ n ih =>
      intro hlen hgood
      obtain ⟨stN, heq, hregEq⟩ :=
        ih (Nat.le_of_succ_le hlen) (fun j hj => hgood j (Nat.lt_succ_of_lt hj))
      obtain ⟨chain, exchange, asset1, asset2, round, info, hc, he, ha1, ha2, hr,
        hreg, hwho⟩ := hgood n (Nat.lt_succ_self n)
      have hn : n < prices.length := hlen
      obtain ⟨p, hp⟩ : ∃ p, prices.get? n = some p :=
        ⟨prices.get ⟨n, hn⟩, List.get?_eq_get hn⟩
      have hregN : alookup stN.assetRegistry (chain, exchange, asset1, asset2)
          = some info := by rw [hregEq]; exact hreg
      refine ⟨writePrice stN (chain, exchange, asset1, asset2)
        { round := round, nonce := 1, amount := p }, ?_, ?_⟩
      · rw [heq, updatePricesLoop_step who chains exchanges assets1 assets2
          rounds prices n stN chain exchange asset1 asset2 round p info
          hc he ha1 ha2 hr hp hregN hwho]
      · simpa [writePrice] using hregEq

/-- C4: in `update_asset_prices`, (1) a batch entry naming an
unregistered key fails the call with `AssetNotInitialized`; (2) an entry
whose signer is not among the key's `oracle_providers` fails it with
`OracleNotAuthorized`; (3) an authorized entry overwrites the key's
`PriceData` unconditionally — whatever round or price was stored before;
(4) any failing entry aborts the whole batch: an `err` outcome hands the
caller back exactly the entry state, `PriceRegistry` untouched for every
key (the extrinsic is `#[transactional]`).  In (1) and (2) the entries
before position `i` are assumed well-formed so that the loop reaches
entry `i`. -/
theorem update_asset_prices_entry_checks :
    (∀ (who : Acct) (chains exchanges assets1 assets2 : List Bytes)
        (prices sa rounds : List Nat) (st : PalletState) (i : Nat)
        (chain exchange asset1 asset2 : Bytes) (round p : Nat),
      (∀ j, j < i → entryOk who chains exchanges assets1 assets2 rounds
        st.assetRegistry j) →
      chains.get? i = some chain → exchanges.get? i = some exchange →
      assets1.get? i = some asset1 → assets2.get? i = some asset2 →
      rounds.get? i = some round → prices.get? i = some p →
      alookup st.assetRegistry (chain, exchange, asset1, asset2) = none →
      update_asset_prices who chains exchanges assets1 assets2 prices sa rounds st =
        CallResult.err PalletError.AssetNotInitialized st) ∧
    (∀ (who : Acct) (chains exchanges assets1 assets2 : List Bytes)
        (prices sa rounds : List Nat) (st : PalletState) (i : Nat)
        (chain exchange asset1 asset2 : Bytes) (round p : Nat)
        (info : RegistryInfo),
      (∀ j, j < i → entryOk who chains exchanges assets1 assets2 rounds
        st.assetRegistry j) →
      chains.get? i = some chain → exchanges.get? i = some exchange →
      assets1.get? i = some asset1 → assets2.get? i = some asset2 →
      rounds.get? i = some round → prices.get? i = some p →
      alookup st.assetRegistry (chain, exchange, asset1, asset2) = some info →
      who ∉ info.oracle_providers →
      update_asset_prices who chains exchanges assets1 assets2 prices sa rounds st =
        CallResult.err PalletError.OracleNotAuthorized st) ∧
    (∀ (who : Acct) (chain exchange asset1 asset2 : Bytes) (p sa round : Nat)
        (st : PalletState) (info : RegistryInfo),
      alookup st.assetRegistry (chain, exchange, asset1, asset2) = some info →
      who ∈ info.oracle_providers →
      update_asset_prices who [chain] [exchange] [asset1] [asset2] [p] [sa]
          [round] st =
        CallResult.ok (writePrice st (chain, exchange, asset1, asset2)
          { round := round, nonce := 1, amount := p })) ∧
    (∀ (who : Acct) (chains exchanges assets1 assets2 : List Bytes)
        (prices sa rounds : List Nat) (st : PalletState) (e : PalletError)
        (st' : PalletState),
      update_asset_prices who chains exchanges assets1 assets2 prices sa rounds st =
        CallResult.err e st' → st' = st) := by
  refine ⟨?_, ?_, ?_, ?_⟩
  · intro who chains exchanges assets1 assets2 prices sa rounds st i
      chain exchange asset1 asset2 round p hgood hc he ha1 ha2 hr hp hreg
    have hlen : i ≤ prices.length := by
      by_contra hcon
      push_neg at hcon
      rw [List.get?_eq_none.mpr (Nat.le_of_lt hcon)] at hp
      exact absurd hp (by simp)
    obtain ⟨stI, heq, hregEq⟩ := updatePricesLoop_reach who chains exchanges
      assets1 assets2 rounds prices st i hlen hgood
    unfold update_asset_prices
    rw [heq, drop_eq_cons_of_get prices i p hp]
    rw [List.get?_eq_getElem?] at hc he ha1 ha2 hr
    simp only [updatePricesLoop, List.get?_eq_getElem?, hc, he, ha1, ha2, hr]
    simp [hregEq, hreg]
  · intro who chains exchanges assets1 assets2 prices sa rounds st i
      chain exchange asset1 asset2 round p info hgood hc he ha1 ha2 hr hp
      hreg hwho
    have hlen : i ≤ prices.length := by
      by_contra hcon
      push_neg at hcon
      rw [List.get?_eq_none.mpr (Nat.le_of_lt hcon)] at hp
      exact absurd hp (by simp)
    obtain ⟨stI, heq, hregEq⟩ := updatePricesLoop_reach who chains exchanges
      assets1 assets2 rounds prices st i hlen hgood
    unfold update_asset_prices
    rw [heq, drop_eq_cons_of_get prices i p hp]
    rw [List.get?_eq_getElem?] at hc he ha1 ha2 hr
    simp only [updatePricesLoop, List.get?_eq_getElem?, hc, he, ha1, ha2, hr]
    simp [hregEq, hreg, hwho]
  · intro who chain exchange asset1 asset2 p sa round st info hreg hwho
    simp [update_asset_prices, updatePricesLoop, hreg, hwho]
  · intro who chains exchanges assets1 assets2 prices sa rounds st e st' h
    unfold update_asset_prices at h
    cases hl : updatePricesLoop who chains exchanges assets1 assets2 rounds
        0 prices st with
    | ok st0 => rw [hl] at h; exact absurd h (by simp)
    | err e0 st0 =>
        rw [hl] at h
        injection h with h1 h2
        exact h2.symm
    | panicked st0 => rw [hl] at h; exact absurd h (by simp)

/-- A state with one registered asset key `([1],[2],[3],[4])` whose only
oracle provider is account 1, and an existing price record at round 9. -/
def sampleRegState : PalletState :=
  { emptyState with
    assetRegistry := [(([1], [2], [3], [4]),
      { round := 0, decimal := 6, last_update := 0, oracle_providers := [1] })]
    priceRegistry := [(([1], [2], [3], [4]),
      { round := 9, nonce := 9, amount := 9 })] }

theorem update_asset_prices_entry_checks_witness :
    update_asset_prices 1 [[9]] [[2]] [[3]] [[4]] [5] [0] [1] sampleRegState =
        CallResult.err PalletError.AssetNotInitialized sampleRegState ∧
      update_asset_prices 2 [[1]] [[2]] [[3]] [[4]] [5] [0] [1] sampleRegState =
        CallResult.err PalletError.OracleNotAuthorized sampleRegState ∧
      update_asset_prices 1 [[1]] [[2]] [[3]] [[4]] [5] [0] [7] sampleRegState =
        CallResult.ok (writePrice sampleRegState ([1], [2], [3], [4])
          { round := 7, nonce := 1, amount := 5 }) ∧
      sampleRegState = sampleRegState := by
  refine ⟨?_, ?_, ?_, ?_⟩
  · exact update_asset_prices_entry_checks.1 1 [[9]] [[2]] [[3]] [[4]] [5] [0]
      [1] sampleRegState 0 [9] [2] [3] [4] 1 5
      (fun j hj => absurd hj (by omega)) rfl rfl rfl rfl rfl rfl (by decide)
  · exact update_asset_prices_entry_checks.2.1 2 [[1]] [[2]] [[3]] [[4]] [5] [0]
      [1] sampleRegState 0 [1] [2] [3] [4] 1 5
      { round := 0, decimal := 6, last_update := 0, oracle_providers := [1] }
      (fun j hj => absurd hj (by omega)) rfl rfl rfl rfl rfl rfl (by decide)
      (by decide)
  · exact update_asset_prices_entry_checks.2.2.1 1 [1] [2] [3] [4] 5 0 7
      sampleRegState
      { round := 0, decimal := 6, last_update := 0, oracle_providers := [1] }
      (by decide) (by decide)
  · exact update_asset_prices_entry_checks.2.2.2 2 [[1]] [[2]] [[3]] [[4]] [5]
      [0] [1] sampleRegState PalletError.OracleNotAuthorized sampleRegState
      (by decide)

theorem updatePricesLoop_nonce_one (who : Acct)
    (chains exchanges assets1 assets2 : List Bytes) (rounds : List Nat) :
    ∀ (prices : List Nat) (i : Nat) (st st' : PalletState),
      updatePricesLoop who chains exchanges assets1 assets2 rounds i prices st =
        CallResult.ok st' →
      ∀ key, alookup st'.priceRegistry key = alookup st.priceRegistry key ∨
        ∃ pd, alookup st'.priceRegistry key = some pd ∧ pd.nonce = 1 := by
  intro prices
  induction prices with
  | nil =>
      intro i st st' h key
      simp only [updatePricesLoop] at h
      injection h with h
      subst h
      exact Or.inl rfl
  | cons p rest ih =>
      intro i st st' h key
      simp only [updatePricesLoop] at h
      split at h
      · rename_i chain exchange asset1 asset2 round hc he ha1 ha2 hr
        split at h
        · exact absurd h (by simp)
        · split at h
          · rename_i ar har
            split at h
            · rcases ih (i + 1)
                (writePrice st (chain, exchange, asset1, asset2)
                  { round := round, nonce := 1, amount := p }) st' h key with
                heq | hnonce
              · by_cases hk : key = (chain, exchange, asset1, asset2)
                · right
                  refine ⟨{ round := round, nonce := 1, amount := p }, ?_, rfl⟩
                  rw [heq, hk]
                  exact alookup_ainsert_self _ _ _
                · left
                  rw [heq]
                  exact alookup_ainsert_other _ _ _ _ hk
              · exact Or.inr hnonce
            · exact absurd h (by simp)
          · exact ih (i + 1) st st' h key
      · exact absurd h (by simp)

/-- C9: every `PriceData` record that a successful `update_asset_prices`
writes has `nonce = 1` (hard-coded in the source), regardless of the
previously stored nonce and of the `submitted_at` and `round` inputs:
after a successful call every price entry is either untouched or has
nonce 1, so no other nonce value can be set or observed through this
operation. -/
theorem update_asset_prices_nonce_always_one (who : Acct)
    (chains exchanges assets1 assets2 : List Bytes)
    (prices sa rounds : List Nat) (st st' : PalletState)
    (h : update_asset_prices who chains exchanges assets1 assets2 prices sa
      rounds st = CallResult.ok st') :
    ∀ key, alookup st'.priceRegistry key = alookup st.priceRegistry key ∨
      ∃ pd, alookup st'.priceRegistry key = some pd ∧ pd.nonce = 1 := by
  intro key
  unfold update_asset_prices at h
  cases hl : updatePricesLoop who chains exchanges assets1 assets2 rounds
      0 prices st with
  | ok st0 =>
      rw [hl] at h
      injection h with h
      subst h
      exact updatePricesLoop_nonce_one who chains exchanges assets1 assets2
        rounds prices 0 st _ hl key
  | err e0 st0 => rw [hl] at h; exact absurd h (by simp)
  | panicked st0 => rw [hl] at h; exact absurd h (by simp)

theorem update_asset_prices_nonce_always_one_witness :
    alookup (writePrice sampleRegState ([1], [2], [3], [4])
        { round := 7, nonce := 1, amount := 5 }).priceRegistry
        ([1], [2], [3], [4]) =
      alookup sampleRegState.priceRegistry ([1], [2], [3], [4]) ∨
    ∃ pd, alookup (writePrice sampleRegState ([1], [2], [3], [4])
        { round := 7, nonce := 1, amount := 5 }).priceRegistry
        ([1], [2], [3], [4]) = some pd ∧ pd.nonce = 1 :=
  update_asset_prices_nonce_always_one 1 [[1]] [[2]] [[3]] [[4]] [5] [0] [7]
    sampleRegState
    (writePrice sampleRegState ([1], [2], [3], [4])
      { round := 7, nonce := 1, amount := 5 })
    (by decide) ([1], [2], [3], [4])

/-- C2 (counterexample to the claim as stated): with one queued task of
dispatch cost `W = 5` plus overhead `2` and budget `B = 0`, the claim
predicts `floor(0 / 7) = 0` executed tasks and the full queue returned;
the code dispatches the task anyway — the budget is checked only after
each dispatch — returning an empty remainder and removing the task. -/
theorem run_tasks_budget_zero_counterexample :
    (run_tasks sampleConf (fun _ _ _ => none) [[49]] 0 sampleTransferState).1
        = [] ∧
      (0 : Nat) / (sampleConf.run_native_transfer_task + sampleConf.dbWrite +
        sampleConf.dbRead) = 0 ∧
      alookup (run_tasks sampleConf (fun _ _ _ => none) [[49]] 0
        sampleTransferState).2.2.tasks [49] = none :=
  ⟨by decide, by decide, by decide⟩

/-- C2 (as amended): for a queue of `N` distinct task ids, all present
in the `Tasks` store with `NativeTransfer` actions (so each dispatch
costs `C = W + one write + one read` with `W` the configured transfer
weight), and a budget `B`, `run_tasks` executes
`k = min N (1 + (B ∸ R) / C)` tasks — where `R = emit_event + one write
+ one read` is the continue-threshold checked only after each dispatch,
so at least one task runs whenever the queue is non-empty, even at
budget 0 — and returns the remaining `N - k` task ids unchanged in their
original relative order (the `drop` of the executed prefix) together
with the weight `B ∸ k * C`. -/
theorem run_tasks_executes_min_count (cfg : WeightConf)
    (tf : Acct → Acct → Nat → Option DispatchError)
    (hC : 1 ≤ cfg.run_native_transfer_task + cfg.dbWrite + cfg.dbRead)
    (hR : 1 ≤ cfg.emit_event + cfg.dbWrite + cfg.dbRead) :
    ∀ (ids : List TaskId) (B : Nat) (st : PalletState),
      ids.Nodup →
      (∀ id ∈ ids, ∃ t s r a, alookup st.tasks id = some t ∧
        t.action = Action.NativeTransfer s r a) →
      (run_tasks cfg tf ids B st).1 =
          ids.drop (min ids.length
            (1 + (B - (cfg.emit_event + cfg.dbWrite + cfg.dbRead)) /
              (cfg.run_native_transfer_task + cfg.dbWrite + cfg.dbRead))) ∧
        (run_tasks cfg tf ids B st).2.1 =
          B - (min ids.length
            (1 + (B - (cfg.emit_event + cfg.dbWrite + cfg.dbRead)) /
              (cfg.run_native_transfer_task + cfg.dbWrite + cfg.dbRead))) *
            (cfg.run_native_transfer_task + cfg.dbWrite + cfg.dbRead) := by
  intro ids
  induction ids with
  | nil =>
      intro B st _ _
      simp [run_tasks]
  | cons id rest ih =>
      intro B st hnodup hpresent
      obtain ⟨t, s, r, a, hfound, haction⟩ :=
        hpresent id (List.mem_cons_self id rest)
      set C := cfg.run_native_transfer_task + cfg.dbWrite + cfg.dbRead with hCdef
      set R := cfg.emit_event + cfg.dbWrite + cfg.dbRead with hRdef
      by_cases hw : B - C < R
      · -- the budget check after the first dispatch stops the loop
        have hlt : B - R < C := by omega
        have hdiv : (B - R) / C = 0 := Nat.div_eq_of_lt hlt
        have hk : min (rest.length + 1) (1 + (B - R) / C) = 1 := by
          rw [hdiv]
          omega
        have hres : (run_tasks cfg tf (id :: rest) B st).1 = rest ∧
            (run_tasks cfg tf (id :: rest) B st).2.1 = B - C := by
          cases htf : tf s r a <;>
            constructor <;>
            simp [run_tasks, hfound, haction, run_native_transfer_task, htf,
              hCdef, hRdef, hw]
        refine ⟨?_, ?_⟩
        · rw [hres.1]
          simp only [List.length_cons]
          rw [hk]
          simp
        · rw [hres.2]
          simp only [List.length_cons]
          rw [hk]
          simp
      · -- enough weight remains: the loop continues on the tail
        have hBC : C + R ≤ B := by omega
        have hCle : C ≤ B - R := by omega
        have hdiv : (B - R) / C = (B - R - C) / C + 1 :=
          Nat.div_eq_sub_div (by omega) hCle
        have harith : B - C - R = B - R - C := by omega
        have hk : min (rest.length + 1) (1 + (B - R) / C) =
            min rest.length (1 + (B - C - R) / C) + 1 := by
          rw [hdiv, harith]
          have := Nat.succ_min_succ rest.length (1 + (B - R - C) / C)
          omega
        have hst1tasks : ∀ id' ∈ rest,
            ∃ t' s' r' a',
              alookup (aremove st.tasks id) id' = some t' ∧
                t'.action = Action.NativeTransfer s' r' a' := by
          intro id' hid'
          have hne : id' ≠ id := by
            intro hcon
            subst hcon
            exact (List.nodup_cons.mp hnodup).1 hid'
          obtain ⟨t', s', r', a', hfound', haction'⟩ :=
            hpresent id' (List.mem_cons_of_mem id hid')
          exact ⟨t', s', r', a',
            by rw [alookup_aremove_other st.tasks id id' hne]; exact hfound',
            haction'⟩
        cases htf : tf s r a with
        | none =>
            have hih := ih (B - C)
              { st with
                tasks := aremove st.tasks id,
                events := st.events ++
                  [Event.SuccessfullyTransferredFunds id] }
              (List.nodup_cons.mp hnodup).2 (fun id' hid' => hst1tasks id' hid')
            refine ⟨?_, ?_⟩
            · simp only [List.length_cons]
              rw [hk]
              have hgoal : (run_tasks cfg tf (id :: rest) B st).1 =
                  (run_tasks cfg tf rest (B - C)
                    { st with
                      tasks := aremove st.tasks id,
                      events := st.events ++
                        [Event.SuccessfullyTransferredFunds id] }).1 := by
                simp [run_tasks, hfound, haction, run_native_transfer_task, htf,
                  deposit_event, hCdef, hRdef, hw]
              rw [hgoal, hih.1, List.drop_succ_cons]
            · have hgoal : (run_tasks cfg tf (id :: rest) B st).2.1 =
                  (run_tasks cfg tf rest (B - C)
                    { st with
                      tasks := aremove st.tasks id,
                      events := st.events ++
                        [Event.SuccessfullyTransferredFunds id] }).2.1 := by
                simp [run_tasks, hfound, haction, run_native_transfer_task, htf,
                  deposit_event, hCdef, hRdef, hw]
              simp only [List.length_cons]
              rw [hgoal, hih.2, hk]
              have : (min rest.length (1 + (B - C - R) / C) + 1) * C =
                  min rest.length (1 + (B - C - R) / C) * C + C := by ring
              omega
        | some derr =>
            have hih := ih (B - C)
              { st with
                tasks := aremove st.tasks id,
                events := st.events ++ [Event.TransferFailed id derr] }
              (List.nodup_cons.mp hnodup).2 (fun id' hid' => hst1tasks id' hid')
            refine ⟨?_, ?_⟩
            · simp only [List.length_cons]
              rw [hk]
              have hgoal : (run_tasks cfg tf (id :: rest) B st).1 =
                  (run_tasks cfg tf rest (B - C)
                    { st with
                      tasks := aremove st.tasks id,
                      events := st.events ++
                        [Event.TransferFailed id derr] }).1 := by
                simp [run_tasks, hfound, haction, run_native_transfer_task, htf,
                  deposit_event, hCdef, hRdef, hw]
              rw [hgoal, hih.1, List.drop_succ_cons]
            · have hgoal : (run_tasks cfg tf (id :: rest) B st).2.1 =
                  (run_tasks cfg tf rest (B - C)
                    { st with
                      tasks := aremove st.tasks id,
                      events := st.events ++
                        [Event.TransferFailed id derr] }).2.1 := by
                simp [run_tasks, hfound, haction, run_native_transfer_task, htf,
                  deposit_event, hCdef, hRdef, hw]
              simp only [List.length_cons]
              rw [hgoal, hih.2, hk]
              have : (min rest.length (1 + (B - C - R) / C) + 1) * C =
                  min rest.length (1 + (B - C - R) / C) * C + C := by ring
              omega

theorem run_tasks_executes_min_count_witness :
    (run_tasks sampleConf (fun _ _ _ => none) [[49]] 0 sampleTransferState).1 =
        ([[49]] : List TaskId).drop (min 1 (1 + (0 - 3) / 7)) ∧
      (run_tasks sampleConf (fun _ _ _ => none) [[49]] 0
          sampleTransferState).2.1 = 0 - min 1 (1 + (0 - 3) / 7) * 7 := by
  have h := run_tasks_executes_min_count sampleConf (fun _ _ _ => none)
    (by decide) (by decide) [[49]] 0 sampleTransferState (by decide)
    (fun id hid => by
      have : id = [49] := by simpa using hid
      subst this
      exact ⟨sampleTransferTask, 2, 3, 10, by decide, rfl⟩)
  simpa using h

end OAK
